import Mathlib

/-!
Shallow embedding of `train_schedule.py` (dart_tracker).

The core is `get_next_train` (lines 72-130): a next-departure query over four
GTFS tables (stops, stop_times, trips, calendar).  Each pandas step is
modelled as a pure list transformation:

* line 94:  station resolution (`stationStopIds`)
* line 101: filter stop_times to the station's stop ids (`filterStation`)
* line 105: strict `%H:%M:%S` parse with `errors=coerce` (`parseTime`,
  `parseRows`); unparseable entries become `none` (pandas `NaT`)
* line 108: keep rows strictly later than `now.time()`; `NaT > t` is false
  in pandas, so unparseable rows are dropped here (`filterFuture`)
* line 111: inner merge with trips on `trip_id`; pandas inner merge keeps
  the left frame's row order, one output row per matching right row
  (`mergeTrips`)
* lines 114-116: keep rows whose `service_id` appears in a calendar row
  whose flag for today's weekday equals 1 (`filterService`)
* line 119: stable sort by `(trip_headsign, arrival_time)`; pandas
  multi-key `sort_values` uses `lexsort`, which is stable
  (`sortByHeadsignArrival`)
* line 124: `groupby('trip_headsign').apply(lambda x: x.head(n))`;
  `groupby` sorts group keys ascending and keeps within-group row order
  (`headsignsOf`, `groupTake`)
* line 127: final single-key sort by `arrival_time` with the default
  `kind='quicksort'` (numpy's introsort, which is NOT stable): the sort
  guarantees only an arrival-sorted permutation of its input, captured by
  `IsArrivalSort`; `sortByArrival` is one executable refinement of that
  contract, and no theorem relies on its tie order

Times of day are modelled as seconds since midnight (`Nat`); `now` carries
its time-of-day in whole seconds (arrival strings have whole-second
resolution, so comparisons against a sub-second `now` coincide with
comparisons against its floor) and the weekday obtained from
`strftime('%A')`.  The function returns `none` when no stop matches the
station name (the code prints "No station found" and returns early,
line 96-98) and `some rows` otherwise.
-/

/-- Time of day in seconds since midnight. -/
abbrev TimeOfDay := Nat

structure Stop where
  stop_id : String
  stop_name : String
deriving DecidableEq, Repr

structure StopTime where
  stop_id : String
  trip_id : String
  arrival_time : String
  departure_time : String
deriving DecidableEq, Repr

structure Trip where
  trip_id : String
  route_id : String
  service_id : String
  trip_headsign : String
deriving DecidableEq, Repr

inductive Weekday where
  | monday | tuesday | wednesday | thursday | friday | saturday | sunday
deriving DecidableEq, Repr

/-- A row of `calendar.txt`: the seven flags are the 0/1 day columns. -/
structure CalendarEntry where
  service_id : String
  monday : Bool
  tuesday : Bool
  wednesday : Bool
  thursday : Bool
  friday : Bool
  saturday : Bool
  sunday : Bool
deriving DecidableEq, Repr

/-- The day column selected by `current_time.strftime('%A').lower()`. -/
def CalendarEntry.dayFlag (c : CalendarEntry) : Weekday → Bool
  | Weekday.monday => c.monday
  | Weekday.tuesday => c.tuesday
  | Weekday.wednesday => c.wednesday
  | Weekday.thursday => c.thursday
  | Weekday.friday => c.friday
  | Weekday.saturday => c.saturday
  | Weekday.sunday => c.sunday

/-- The four tables read at lines 90-93. -/
structure Tables where
  stops : List Stop
  stop_times : List StopTime
  trips : List Trip
  calendar : List CalendarEntry
deriving DecidableEq, Repr

/-- The query instant `datetime.now()`: its time-of-day (whole seconds) and
its weekday. -/
structure Instant where
  timeOfDay : TimeOfDay
  weekday : Weekday
deriving DecidableEq, Repr

/-- A merged result row (line 111): the stop_time columns, with
`arrival_time` replaced by its parsed value (line 105), plus the trip
columns.  `arrival_str` records the original `arrival_time` string the
parsed value came from, so that statements can speak about the source
text. -/
structure Dep where
  stop_id : String
  trip_id : String
  arrival_str : String
  arrival : TimeOfDay
  departure_time : String
  route_id : String
  service_id : String
  trip_headsign : String
deriving DecidableEq, Repr

/-- Split a character list at every colon (the field structure of the
`%H:%M:%S` format). -/
def splitColon : List Char → List (List Char)
  | [] => [[]]
  | c :: cs =>
    if c = ':' then [] :: splitColon cs
    else
      match splitColon cs with
      | [] => [[c]]
      | p :: ps => (c :: p) :: ps

/-- Parse one field of `%H:%M:%S`: one or two digit characters. -/
def parseField (cs : List Char) : Option Nat :=
  if cs ≠ [] ∧ cs.length ≤ 2 ∧ cs.all Char.isDigit then
    some (cs.foldl (fun n c => 10 * n + (c.toNat - 48)) 0)
  else none

/-- Strict parse of an `arrival_time` string under
`pd.to_datetime(format='%H:%M:%S', errors='coerce')` (line 105): exactly
three colon-separated digit fields with hour ≤ 23, minute ≤ 59,
second ≤ 59; anything else coerces to `NaT`, modelled as `none`. -/
def parseTime (s : String) : Option TimeOfDay :=
  match splitColon s.toList with
  | [h, m, sec] =>
    match parseField h, parseField m, parseField sec with
    | some hv, some mv, some sv =>
      if hv ≤ 23 ∧ mv ≤ 59 ∧ sv ≤ 59 then some (3600 * hv + 60 * mv + sv)
      else none
    | _, _, _ => none
  | _ => none

/-- Line 94: all stop_ids whose stop_name equals the station name. -/
def stationStopIds (stops : List Stop) (station_name : String) : List String :=
  (stops.filter (fun s => s.stop_name = station_name)).map Stop.stop_id

/-- Line 101: restrict stop_times to the station's stop ids. -/
def filterStation (ids : List String) (sts : List StopTime) : List StopTime :=
  sts.filter (fun st => decide (st.stop_id ∈ ids))

/-- Line 105: attach the parsed arrival time (or `none` for `NaT`) to each
row. -/
def parseRows (sts : List StopTime) : List (StopTime × Option TimeOfDay) :=
  sts.map (fun st => (st, parseTime st.arrival_time))

/-- Line 108: keep rows whose parsed arrival time is strictly later than
`now.time()`; `NaT` compares false and is dropped. -/
def filterFuture (nowT : TimeOfDay) (rows : List (StopTime × Option TimeOfDay)) :
    List (StopTime × TimeOfDay) :=
  rows.filterMap (fun r =>
    match r.2 with
    | some t => if nowT < t then some (r.1, t) else none
    | none => none)

/-- Line 111: inner merge with trips on trip_id, keeping the left frame's
row order and emitting one row per matching trip. -/
def mergeTrips (trips : List Trip) (rows : List (StopTime × TimeOfDay)) : List Dep :=
  rows.flatMap (fun r =>
    (trips.filter (fun tr => tr.trip_id = r.1.trip_id)).map (fun tr =>
      { stop_id := r.1.stop_id
        trip_id := r.1.trip_id
        arrival_str := r.1.arrival_time
        arrival := r.2
        departure_time := r.1.departure_time
        route_id := tr.route_id
        service_id := tr.service_id
        trip_headsign := tr.trip_headsign }))

/-- Lines 114-116: a service_id is active when some calendar row carries it
with today's flag equal to 1. -/
def serviceActive (calendar : List CalendarEntry) (wd : Weekday) (sid : String) : Bool :=
  (calendar.filter (fun c => c.dayFlag wd)).any (fun c => c.service_id = sid)

/-- Line 116: keep rows whose service runs today. -/
def filterService (calendar : List CalendarEntry) (wd : Weekday) (rows : List Dep) :
    List Dep :=
  rows.filter (fun d => serviceActive calendar wd d.service_id)

/-- The two-column sort key of line 119.  Python compares strings by code
points, which is the lexicographic order on their character lists. -/
def sortKey (d : Dep) : Lex (List Char × Nat) := toLex (d.trip_headsign.toList, d.arrival)

/-- Line 119: stable sort by `(trip_headsign, arrival_time)`. -/
def sortByHeadsignArrival (rows : List Dep) : List Dep :=
  rows.insertionSort (fun a b => sortKey a ≤ sortKey b)

/-- The group keys produced by `groupby('trip_headsign')`: the distinct
headsigns, sorted ascending (pandas `groupby` sorts keys by default). -/
def headsignsOf (rows : List Dep) : List String :=
  ((rows.map Dep.trip_headsign).dedup).insertionSort (fun a b => a.toList ≤ b.toList)

/-- Line 124: for each headsign group (in sorted key order) keep the first
`n` rows of the group, in the frame's current row order. -/
def groupTake (n : Nat) (rows : List Dep) : List Dep :=
  (headsignsOf rows).flatMap (fun h =>
    (rows.filter (fun d => d.trip_headsign = h)).take n)

/-- Line 127: final sort by arrival_time alone.  `sort_values` with a
single key uses the default `kind='quicksort'`, an unstable numpy
introsort: the program guarantees only `IsArrivalSort` (an arrival-sorted
permutation), not any particular tie order.  The model needs some
executable refinement of that contract and uses `insertionSort`; theorems
about the final list use only its sortedness and permutation. -/
def sortByArrival (rows : List Dep) : List Dep :=
  rows.insertionSort (fun a b => a.arrival ≤ b.arrival)

/-- Everything line 127 guarantees about its output: some permutation of
the input that is sorted non-decreasing by arrival_time.  `kind='quicksort'`
promises nothing about the relative order of rows tying on arrival_time. -/
def IsArrivalSort (input output : List Dep) : Prop :=
  output.Perm input ∧ output.Sorted (fun a b => a.arrival ≤ b.arrival)

/-- Lines 101-116 composed: the station's upcoming rows with trip data
attached and inactive services removed. -/
def activeRows (station_name : String) (tables : Tables) (now : Instant) : List Dep :=
  filterService tables.calendar now.weekday
    (mergeTrips tables.trips
      (filterFuture now.timeOfDay
        (parseRows (filterStation (stationStopIds tables.stops station_name)
          tables.stop_times))))

/-- Line 119 applied to the pipeline. -/
def sortedRows (station_name : String) (tables : Tables) (now : Instant) : List Dep :=
  sortByHeadsignArrival (activeRows station_name tables now)

/-- Line 124 applied to the pipeline. -/
def keptRows (station_name : String) (num_trains_per_route : Nat) (tables : Tables)
    (now : Instant) : List Dep :=
  groupTake num_trains_per_route (sortedRows station_name tables now)

/-- `get_next_train` (lines 72-130): `none` models the early return with the
"No station found" message; `some rows` models the printed result table. -/
def get_next_train (station_name : String) (num_trains_per_route : Nat)
    (tables : Tables) (now : Instant) : Option (List Dep) :=
  if stationStopIds tables.stops station_name = [] then none
  else some (sortByArrival (keptRows station_name num_trains_per_route tables now))

/-- State-passing form of the query: the pair holds the printed result and
the caller-visible tables after the call.  The only assignment in the code,
`filtered_stop_times['arrival_time'] = ...` (line 105), writes to
`filtered_stop_times`, which pandas boolean-mask indexing (line 101)
produced as a new frame; the loaded tables themselves are never assigned
to, so the state after the call is the state before it. -/
def get_next_train_run (station_name : String) (num_trains_per_route : Nat)
    (tables : Tables) (now : Instant) : Option (List Dep) × Tables :=
  (get_next_train station_name num_trains_per_route tables now, tables)

/-- The outcome of the single `requests.get(url)` call (line 148). -/
structure HttpResponse where
  status_code : Nat
  content : List Nat
deriving DecidableEq, Repr

/-- The local filesystem at the save path: the bytes of the zip archive, if
a file exists there. -/
structure SavePathState where
  savedZip : Option (List Nat)
deriving DecidableEq, Repr

/-- `fetch_gtfs_data` (lines 132-154): one request is issued (its outcome is
the `response` argument; the code contains no retry).  On status 200 the
body is written to `path` and the saved message is printed; on any other
status the failure message with the status code is printed and the file is
left untouched.  Either way the function returns normally. -/
def fetch_gtfs_data (url : String) (path : String) (response : HttpResponse)
    (fs : SavePathState) : SavePathState × String :=
  if response.status_code = 200 then
    ({ savedZip := some response.content }, "GTFS data saved to " ++ path)
  else
    (fs, "Failed to download GTFS data: " ++ toString response.status_code)

/-- `extract_gtfs_info` (lines 23-46): `zipfile.ZipFile(save_path, 'r')`
raises when no file exists at the save path (modelled as `Except.error`);
with a file present the archive is extracted.  The `url` parameter only
feeds prints. -/
def extract_gtfs_info (fs : SavePathState) : Except String SavePathState :=
  match fs.savedZip with
  | none => Except.error "FileNotFoundError"
  | some _ => Except.ok fs

/-- The `--fetch` branch of `__main__` (lines 169-172): `fetch_gtfs_data`,
then `extract_gtfs_info()`, then `print_gtfs_info()`.  Nothing catches an
exception escaping the extraction, so an `Except.error` is the process
crashing with a traceback; `Except.ok` carries the final filesystem state
and the message printed by the fetch. -/
def main_refresh (url : String) (path : String) (response : HttpResponse)
    (fs : SavePathState) : Except String (SavePathState × String) :=
  let r := fetch_gtfs_data url path response fs
  match extract_gtfs_info r.1 with
  | Except.error e => Except.error e
  | Except.ok fs2 => Except.ok (fs2, r.2)

/-! ### A concrete dataset (the worked scenario of the specification) -/

def sampleTables : Tables :=
  { stops := [⟨"S1", "A"⟩, ⟨"S2", "A"⟩, ⟨"S3", "B"⟩]
    stop_times := [⟨"S1", "T1", "08:00:00", "08:00:30"⟩,
                   ⟨"S2", "T2", "08:05:00", "08:05:30"⟩,
                   ⟨"S3", "T3", "08:10:00", "08:10:30"⟩]
    trips := [⟨"T1", "R1", "Svc1", "North"⟩,
              ⟨"T2", "R1", "Svc1", "South"⟩,
              ⟨"T3", "R2", "Svc1", "East"⟩]
    calendar := [⟨"Svc1", true, true, true, true, true, true, true⟩] }

/-- 07:00:00 on a Monday. -/
def sampleNow : Instant := { timeOfDay := 25200, weekday := Weekday.monday }

def sampleDepNorth : Dep :=
  ⟨"S1", "T1", "08:00:00", 28800, "08:00:30", "R1", "Svc1", "North"⟩

def sampleDepSouth : Dep :=
  ⟨"S2", "T2", "08:05:00", 29100, "08:05:30", "R1", "Svc1", "South"⟩

/-- The rows the query returns on `sampleTables` at `sampleNow`. -/
def sampleResult : List Dep := [sampleDepNorth, sampleDepSouth]

/-- A dataset whose two departures at station "A" tie at 08:00:00. -/
def tieTables : Tables :=
  { stops := [⟨"S1", "A"⟩, ⟨"S2", "A"⟩]
    stop_times := [⟨"S1", "T1", "08:00:00", "08:00:30"⟩,
                   ⟨"S2", "T2", "08:00:00", "08:00:30"⟩]
    trips := [⟨"T1", "R1", "Svc1", "North"⟩,
              ⟨"T2", "R1", "Svc1", "South"⟩]
    calendar := [⟨"Svc1", true, true, true, true, true, true, true⟩] }

def tieDepNorth : Dep :=
  ⟨"S1", "T1", "08:00:00", 28800, "08:00:30", "R1", "Svc1", "North"⟩

def tieDepSouth : Dep :=
  ⟨"S2", "T2", "08:00:00", 28800, "08:00:30", "R1", "Svc1", "South"⟩

/-! ### Order facts about the sort relations -/

instance : IsTotal Dep (fun a b => sortKey a ≤ sortKey b) :=
  ⟨fun a b => le_total (sortKey a) (sortKey b)⟩

instance : IsTrans Dep (fun a b => sortKey a ≤ sortKey b) :=
  ⟨fun _ _ _ h1 h2 => le_trans h1 h2⟩

instance : IsTotal Dep (fun a b => a.arrival ≤ b.arrival) :=
  ⟨fun a b => Nat.le_total a.arrival b.arrival⟩

instance : IsTrans Dep (fun a b => a.arrival ≤ b.arrival) :=
  ⟨fun _ _ _ h1 h2 => Nat.le_trans h1 h2⟩

instance : IsTotal String (fun a b => a.toList ≤ b.toList) :=
  ⟨fun a b => le_total a.toList b.toList⟩

instance : IsTrans String (fun a b => a.toList ≤ b.toList) :=
  ⟨fun _ _ _ h1 h2 => le_trans h1 h2⟩

/-! ### Stability of `insertionSort`

`List.insertionSort` is a stable sort: elements whose keys tie keep their
relative order.  We express this through `filter`: filtering the sorted
list by a predicate that selects one tie class gives exactly the filter of
the input. -/

theorem filter_orderedInsert_pos {α : Type} (r : α → α → Prop) [DecidableRel r]
    (p : α → Bool) (x : α) (l : List α) (hx : p x = true)
    (h : ∀ b, p b = true → r x b) :
    (l.orderedInsert r x).filter p = x :: l.filter p := by
  induction l with
  | nil => simp [List.orderedInsert, List.filter, hx]
  | cons b l ih =>
    by_cases hrb : r x b
    · simp [List.orderedInsert, if_pos hrb, List.filter_cons, hx]
    · have hpb : p b = false := by
        cases hpbv : p b with
        | false => rfl
        | true => exact absurd (h b hpbv) hrb
      simp [List.orderedInsert, if_neg hrb, List.filter_cons, hpb, ih]

theorem filter_orderedInsert_neg {α : Type} (r : α → α → Prop) [DecidableRel r]
    (p : α → Bool) (x : α) (l : List α) (hx : p x = false) :
    (l.orderedInsert r x).filter p = l.filter p := by
  induction l with
  | nil => simp [List.orderedInsert, List.filter, hx]
  | cons b l ih =>
    by_cases hrb : r x b
    · simp [List.orderedInsert, if_pos hrb, List.filter_cons, hx]
    · simp [List.orderedInsert, if_neg hrb, List.filter_cons, ih]

theorem filter_insertionSort {α : Type} (r : α → α → Prop) [DecidableRel r]
    (p : α → Bool) (l : List α)
    (h : ∀ a b, p a = true → p b = true → r a b) :
    (l.insertionSort r).filter p = l.filter p := by
  induction l with
  | nil => rfl
  | cons x l ih =>
    show ((l.insertionSort r).orderedInsert r x).filter p = (x :: l).filter p
    cases hx : p x with
    | true =>
      rw [filter_orderedInsert_pos r p x _ hx (fun b hb => h x b hx hb), ih,
        List.filter_cons_of_pos hx]
    | false =>
      rw [filter_orderedInsert_neg r p x _ hx, ih, List.filter_cons_of_neg]
      simp [hx]

/-! ### Membership along the pipeline -/

theorem mem_of_insertionSort {α : Type} (r : α → α → Prop) [DecidableRel r]
    {x : α} {l : List α} (h : x ∈ l.insertionSort r) : x ∈ l :=
  (List.perm_insertionSort r l).subset h

theorem mem_groupTake {n : Nat} {rows : List Dep} {d : Dep}
    (h : d ∈ groupTake n rows) : d ∈ rows := by
  rcases List.mem_flatMap.mp h with ⟨g, _, hd⟩
  exact (List.mem_filter.mp (List.mem_of_mem_take hd)).1

theorem mem_filterFuture {nowT : TimeOfDay} {rows : List (StopTime × Option TimeOfDay)}
    {st : StopTime} {t : TimeOfDay} (h : (st, t) ∈ filterFuture nowT rows) :
    (st, some t) ∈ rows ∧ nowT < t := by
  rcases List.mem_filterMap.mp h with ⟨r, hr, hf⟩
  rcases r with ⟨st0, o⟩
  cases o with
  | none => exact absurd hf (by simp)
  | some t0 =>
    have hf0 : (if nowT < t0 then some (st0, t0) else none) = some (st, t) := hf
    by_cases hlt : nowT < t0
    · rw [if_pos hlt] at hf0
      injection hf0 with hf1
      injection hf1 with hst ht
      subst hst
      subst ht
      exact ⟨hr, hlt⟩
    · rw [if_neg hlt] at hf0
      exact absurd hf0 (by simp)

theorem mem_parseRows {sts : List StopTime} {st : StopTime} {o : Option TimeOfDay}
    (h : (st, o) ∈ parseRows sts) : st ∈ sts ∧ o = parseTime st.arrival_time := by
  rcases List.mem_map.mp h with ⟨st0, hst0, heq⟩
  injection heq with h1 h2
  subst h1
  subst h2
  exact ⟨hst0, rfl⟩

theorem mem_filterStation {ids : List String} {sts : List StopTime} {st : StopTime}
    (h : st ∈ filterStation ids sts) : st ∈ sts ∧ st.stop_id ∈ ids := by
  have h0 := List.mem_filter.mp h
  exact ⟨h0.1, by simpa using h0.2⟩

theorem mem_mergeTrips {trips : List Trip} {rows : List (StopTime × TimeOfDay)} {d : Dep}
    (h : d ∈ mergeTrips trips rows) :
    ∃ r ∈ rows, ∃ tr ∈ trips, tr.trip_id = r.1.trip_id ∧
      d = { stop_id := r.1.stop_id, trip_id := r.1.trip_id,
            arrival_str := r.1.arrival_time, arrival := r.2,
            departure_time := r.1.departure_time, route_id := tr.route_id,
            service_id := tr.service_id, trip_headsign := tr.trip_headsign } := by
  rcases List.mem_flatMap.mp h with ⟨r, hr, hd⟩
  rcases List.mem_map.mp hd with ⟨tr, htr, heq⟩
  have h0 := List.mem_filter.mp htr
  exact ⟨r, hr, tr, h0.1, by simpa using h0.2, heq.symm⟩

theorem serviceActive_iff {calendar : List CalendarEntry} {wd : Weekday} {sid : String} :
    serviceActive calendar wd sid = true ↔
      ∃ c ∈ calendar, c.dayFlag wd = true ∧ c.service_id = sid := by
  simp [serviceActive, List.any_eq_true, List.mem_filter, and_assoc]

/-- Everything known about a row of `activeRows`: it came from a stop_time
row of the station whose arrival parsed to a future time, joined with a
matching trip, and its service is active today. -/
theorem mem_activeRows {station_name : String} {tables : Tables} {now : Instant}
    {d : Dep} (hd : d ∈ activeRows station_name tables now) :
    serviceActive tables.calendar now.weekday d.service_id = true ∧
      now.timeOfDay < d.arrival ∧ parseTime d.arrival_str = some d.arrival ∧
      ∃ st ∈ tables.stop_times, st.stop_id ∈ stationStopIds tables.stops station_name ∧
        d.stop_id = st.stop_id ∧ d.trip_id = st.trip_id ∧
        d.arrival_str = st.arrival_time ∧ d.departure_time = st.departure_time ∧
        ∃ tr ∈ tables.trips, tr.trip_id = st.trip_id ∧ d.route_id = tr.route_id ∧
          d.service_id = tr.service_id ∧ d.trip_headsign = tr.trip_headsign := by
  have h0 := List.mem_filter.mp hd
  rcases mem_mergeTrips h0.1 with ⟨r, hr, tr, htr, htrid, hdeq⟩
  rcases r with ⟨st, t⟩
  rcases mem_filterFuture hr with ⟨hmem, hlt⟩
  rcases mem_parseRows hmem with ⟨hst, hparse⟩
  rcases mem_filterStation hst with ⟨hst2, hid⟩
  subst hdeq
  refine ⟨by simpa using h0.2, hlt, hparse.symm, st, hst2, hid, rfl, rfl, rfl, rfl,
    tr, htr, htrid, rfl, rfl, rfl⟩

/-- Rows of the result list are rows of `activeRows`. -/
theorem mem_result {station_name : String} {n : Nat} {tables : Tables} {now : Instant}
    {l : List Dep} {d : Dep} (hl : get_next_train station_name n tables now = some l)
    (hd : d ∈ l) : d ∈ activeRows station_name tables now := by
  unfold get_next_train at hl
  by_cases hids : stationStopIds tables.stops station_name = []
  · rw [if_pos hids] at hl
    exact absurd hl (by simp)
  · rw [if_neg hids] at hl
    injection hl with hl
    subst hl
    have h1 : d ∈ keptRows station_name n tables now := mem_of_insertionSort _ hd
    have h2 : d ∈ sortedRows station_name tables now := mem_groupTake h1
    exact mem_of_insertionSort _ h2

/-! ### The per-headsign truncation -/

theorem mem_headsignsOf {rows : List Dep} {h : String} :
    h ∈ headsignsOf rows ↔ ∃ d ∈ rows, d.trip_headsign = h := by
  unfold headsignsOf
  rw [(List.perm_insertionSort _ _).mem_iff, List.mem_dedup, List.mem_map]

theorem nodup_headsignsOf (rows : List Dep) : (headsignsOf rows).Nodup :=
  (List.perm_insertionSort _ _).nodup_iff.mpr (List.nodup_dedup _)

theorem flatMap_eq_of_nodup {α : Type} [DecidableEq α] {β : Type} {gs : List α}
    (f : α → List β) (h : α) (hnd : gs.Nodup) (hne : ∀ g ∈ gs, g ≠ h → f g = []) :
    gs.flatMap f = if h ∈ gs then f h else [] := by
  induction gs with
  | nil => simp
  | cons g gs ih =>
    rcases List.nodup_cons.mp hnd with ⟨hg, hnd2⟩
    by_cases hgh : g = h
    · subst hgh
      have hrest : gs.flatMap f = [] :=
        List.flatMap_eq_nil_iff.mpr (fun x hx => hne x (List.mem_cons_of_mem g hx)
          (fun hxg => hg (hxg ▸ hx)))
      simp [List.flatMap_cons, hrest]
    · have hfg : f g = [] := hne g (List.mem_cons_self g gs) hgh
      have hih := ih hnd2 (fun x hx => hne x (List.mem_cons_of_mem g hx))
      rw [List.flatMap_cons, hfg, List.nil_append, hih]
      have hhg : (h ∈ g :: gs) ↔ h ∈ gs := by
        rw [List.mem_cons]
        constructor
        · rintro (rfl | hm)
          · exact absurd rfl hgh
          · exact hm
        · exact fun hm => Or.inr hm
      exact (if_congr hhg rfl rfl).symm

/-- The filter of `groupTake` at one headsign is the first `n` rows of that
headsign's group, in the frame's current order. -/
theorem filter_groupTake (n : Nat) (rows : List Dep) (h : String) :
    (groupTake n rows).filter (fun d => d.trip_headsign = h) =
      (rows.filter (fun d => d.trip_headsign = h)).take n := by
  unfold groupTake
  rw [List.filter_flatMap]
  rw [flatMap_eq_of_nodup _ h (nodup_headsignsOf rows)]
  · by_cases hmem : h ∈ headsignsOf rows
    · rw [if_pos hmem]
      apply List.filter_eq_self.mpr
      intro d hd
      have := (List.mem_filter.mp (List.mem_of_mem_take hd)).2
      simpa using this
    · rw [if_neg hmem]
      have hnil : rows.filter (fun d => d.trip_headsign = h) = [] := by
        apply List.filter_eq_nil_iff.mpr
        intro d hd hdh
        exact hmem (mem_headsignsOf.mpr ⟨d, hd, by simpa using hdh⟩)
      rw [hnil, List.take_nil]
  · intro g hg hgh
    apply List.filter_eq_nil_iff.mpr
    intro d hd hdh
    have hdg := (List.mem_filter.mp (List.mem_of_mem_take hd)).2
    exact hgh (by
      have h1 : d.trip_headsign = g := by simpa using hdg
      have h2 : d.trip_headsign = h := by simpa using hdh
      exact h1 ▸ h2)

/-! ### Sortedness facts -/

theorem sorted_sortedRows (station_name : String) (tables : Tables) (now : Instant) :
    (sortedRows station_name tables now).Sorted (fun a b => sortKey a ≤ sortKey b) :=
  List.sorted_insertionSort _ _

/-- Within one headsign, the two-key order of line 119 is just the arrival
order. -/
theorem pairwise_arrival_of_group {l : List Dep} {h : String}
    (hall : ∀ d ∈ l, d.trip_headsign = h)
    (hp : l.Pairwise (fun a b => sortKey a ≤ sortKey b)) :
    l.Pairwise (fun a b => a.arrival ≤ b.arrival) := by
  refine hp.imp_of_mem ?_
  intro a b ha hb hk
  have hha := hall a ha
  have hhb := hall b hb
  rcases (Prod.Lex.le_iff _ _).mp hk with hlt | ⟨_, hle⟩
  · rw [hha, hhb] at hlt
    exact absurd hlt (lt_irrefl _)
  · exact hle

/-- Each headsign's group inside the line-119-sorted frame is sorted by
arrival time. -/
theorem sorted_group (station_name : String) (tables : Tables) (now : Instant)
    (h : String) :
    ((sortedRows station_name tables now).filter
        (fun d => d.trip_headsign = h)).Sorted (fun a b => a.arrival ≤ b.arrival) := by
  apply pairwise_arrival_of_group (h := h)
  · intro d hd
    have := (List.mem_filter.mp hd).2
    simpa using this
  · exact (sorted_sortedRows station_name tables now).filter _

/-! ### The claims -/

/-- C1 counterexample: the final sort (line 127) is a single-key
`sort_values` with the default `kind='quicksort'`, which guarantees only an
arrival-sorted permutation.  At a concrete input whose two kept rows tie at
08:00:00, the list with the two rows swapped satisfies everything line 127
guarantees while differing from the kept rows' original order — so "ties
broken by stable original order" is not a guarantee of the program. -/
theorem C1_stable_ties_counterexample :
    tieDepNorth.arrival = tieDepSouth.arrival ∧
      keptRows "A" 1 tieTables sampleNow = [tieDepNorth, tieDepSouth] ∧
      IsArrivalSort (keptRows "A" 1 tieTables sampleNow) [tieDepSouth, tieDepNorth] ∧
      [tieDepSouth, tieDepNorth] ≠ [tieDepNorth, tieDepSouth] := by
  have hkept : keptRows "A" 1 tieTables sampleNow = [tieDepNorth, tieDepSouth] := by
    decide
  refine ⟨rfl, hkept, ⟨?_, ?_⟩, by decide⟩
  · rw [hkept]
    exact List.Perm.swap tieDepNorth tieDepSouth []
  · exact List.pairwise_pair.mpr (by decide)

/-- C1 (amended): every result list of `get_next_train` is sorted
non-decreasing by arrival time and is a permutation of the rows kept by the
per-headsign truncation — that is, it satisfies the contract of the final
sort (`IsArrivalSort`); the relative order of rows tying on arrival time is
not guaranteed. -/
theorem C1_result_sorted (station_name : String) (n : Nat) (tables : Tables)
    (now : Instant) (l : List Dep)
    (hl : get_next_train station_name n tables now = some l) :
    l.Sorted (fun a b => a.arrival ≤ b.arrival) ∧
      l.Perm (keptRows station_name n tables now) ∧
      IsArrivalSort (keptRows station_name n tables now) l := by
  have hsome : l = sortByArrival (keptRows station_name n tables now) := by
    unfold get_next_train at hl
    by_cases hids : stationStopIds tables.stops station_name = []
    · rw [if_pos hids] at hl
      exact absurd hl (by simp)
    · rw [if_neg hids] at hl
      injection hl with hl
      exact hl.symm
  subst hsome
  exact ⟨List.sorted_insertionSort _ _, List.perm_insertionSort _ _,
    List.perm_insertionSort _ _, List.sorted_insertionSort _ _⟩

theorem C1_result_sorted_witness :
    sampleResult.Sorted (fun a b => a.arrival ≤ b.arrival) ∧
      sampleResult.Perm (keptRows "A" 1 sampleTables sampleNow) ∧
      IsArrivalSort (keptRows "A" 1 sampleTables sampleNow) sampleResult :=
  C1_result_sorted "A" 1 sampleTables sampleNow sampleResult (by decide)

/-- C2: every returned row's arrival time parsed to a value strictly later
than the query instant's time of day; rows at or before it (and rows that
did not parse) are excluded, with no wraparound to the next day. -/
theorem C2_strictly_future (station_name : String) (n : Nat) (tables : Tables)
    (now : Instant) (l : List Dep) (d : Dep)
    (hl : get_next_train station_name n tables now = some l) (hd : d ∈ l) :
    now.timeOfDay < d.arrival ∧ parseTime d.arrival_str = some d.arrival := by
  have h := mem_activeRows (mem_result hl hd)
  exact ⟨h.2.1, h.2.2.1⟩

theorem C2_strictly_future_witness :
    sampleNow.timeOfDay < sampleDepNorth.arrival ∧
      parseTime sampleDepNorth.arrival_str = some sampleDepNorth.arrival :=
  C2_strictly_future "A" 1 sampleTables sampleNow sampleResult sampleDepNorth
    (by decide) (by decide)

/-- C3: every returned row's service_id appears in a Calendar row whose flag
for the query instant's weekday is set; a service_id with no such Calendar
row can never be returned (it is dropped, not an error). -/
theorem C3_service_runs_today (station_name : String) (n : Nat) (tables : Tables)
    (now : Instant) (l : List Dep) (d : Dep)
    (hl : get_next_train station_name n tables now = some l) (hd : d ∈ l) :
    ∃ c ∈ tables.calendar, c.dayFlag now.weekday = true ∧
      c.service_id = d.service_id := by
  have h := (mem_activeRows (mem_result hl hd)).1
  exact serviceActive_iff.mp h

theorem C3_service_runs_today_witness :
    ∃ c ∈ sampleTables.calendar, c.dayFlag sampleNow.weekday = true ∧
      c.service_id = sampleDepNorth.service_id :=
  C3_service_runs_today "A" 1 sampleTables sampleNow sampleResult sampleDepNorth
    (by decide) (by decide)

/-- C4: with perDestination ≥ 1, the rows kept for each trip_headsign group
are exactly the first perDestination rows of that group in the line-119
order, so each group contributes at most perDestination rows; each group in
that order is sorted by arrival time ascending, and rows tying on
(headsign, arrival) keep their original (stable) relative order. -/
theorem C4_per_group_truncation (station_name : String) (n : Nat) (tables : Tables)
    (now : Instant) (h : String) (t : TimeOfDay) (hn : 1 ≤ n) :
    (keptRows station_name n tables now).filter (fun d => d.trip_headsign = h) =
        ((sortedRows station_name tables now).filter
          (fun d => d.trip_headsign = h)).take n ∧
      ((keptRows station_name n tables now).filter
          (fun d => d.trip_headsign = h)).length ≤ n ∧
      ((sortedRows station_name tables now).filter
          (fun d => d.trip_headsign = h)).Sorted (fun a b => a.arrival ≤ b.arrival) ∧
      (sortedRows station_name tables now).filter
          (fun d => d.trip_headsign = h ∧ d.arrival = t) =
        (activeRows station_name tables now).filter
          (fun d => d.trip_headsign = h ∧ d.arrival = t) := by
  have h1 : (keptRows station_name n tables now).filter
        (fun d => d.trip_headsign = h) =
      ((sortedRows station_name tables now).filter
        (fun d => d.trip_headsign = h)).take n :=
    filter_groupTake n (sortedRows station_name tables now) h
  refine ⟨h1, ?_, sorted_group station_name tables now h, ?_⟩
  · rw [h1]
    exact List.length_take_le n _
  · apply filter_insertionSort
    intro a b ha hb
    have ha2 : a.trip_headsign = h ∧ a.arrival = t := by simpa using ha
    have hb2 : b.trip_headsign = h ∧ b.arrival = t := by simpa using hb
    apply le_of_eq
    unfold sortKey
    rw [ha2.1, ha2.2, hb2.1, hb2.2]

theorem C4_per_group_truncation_witness :
    (keptRows "A" 1 sampleTables sampleNow).filter
          (fun d => d.trip_headsign = "North") =
        ((sortedRows "A" sampleTables sampleNow).filter
          (fun d => d.trip_headsign = "North")).take 1 ∧
      ((keptRows "A" 1 sampleTables sampleNow).filter
          (fun d => d.trip_headsign = "North")).length ≤ 1 ∧
      ((sortedRows "A" sampleTables sampleNow).filter
          (fun d => d.trip_headsign = "North")).Sorted
        (fun a b => a.arrival ≤ b.arrival) ∧
      (sortedRows "A" sampleTables sampleNow).filter
          (fun d => d.trip_headsign = "North" ∧ d.arrival = 28800) =
        (activeRows "A" sampleTables sampleNow).filter
          (fun d => d.trip_headsign = "North" ∧ d.arrival = 28800) :=
  C4_per_group_truncation "A" 1 sampleTables sampleNow "North" 28800 (by decide)

/-- C5: the string "25:30:00" fails the strict HH:MM:SS parse, and every
returned row's arrival string parsed successfully — so a stop_time row with
that arrival string is silently excluded (never returned, and the total
query function raises nothing). -/
theorem C5_malformed_time_excluded (station_name : String) (n : Nat) (tables : Tables)
    (now : Instant) (l : List Dep) (d : Dep)
    (hl : get_next_train station_name n tables now = some l) (hd : d ∈ l) :
    parseTime "25:30:00" = none ∧ parseTime d.arrival_str = some d.arrival ∧
      d.arrival_str ≠ "25:30:00" := by
  have h := (mem_activeRows (mem_result hl hd)).2.2.1
  refine ⟨by decide, h, ?_⟩
  intro heq
  rw [heq] at h
  have hnone : parseTime "25:30:00" = none := by decide
  rw [hnone] at h
  exact Option.noConfusion h

theorem C5_malformed_time_excluded_witness :
    parseTime "25:30:00" = none ∧
      parseTime sampleDepNorth.arrival_str = some sampleDepNorth.arrival ∧
      sampleDepNorth.arrival_str ≠ "25:30:00" :=
  C5_malformed_time_excluded "A" 1 sampleTables sampleNow sampleResult sampleDepNorth
    (by decide) (by decide)

/-- C6: when no stop carries the queried name, the query signals not-found
(`none`), which no non-error result — in particular the normal empty result
`some []` — can equal. -/
theorem C6_station_not_found (station_name : String) (n : Nat) (tables : Tables)
    (now : Instant) (l : List Dep)
    (h : ∀ s ∈ tables.stops, s.stop_name ≠ station_name) :
    get_next_train station_name n tables now = none ∧
      get_next_train station_name n tables now ≠ some l := by
  have hids : stationStopIds tables.stops station_name = [] := by
    unfold stationStopIds
    have : tables.stops.filter (fun s => s.stop_name = station_name) = [] :=
      List.filter_eq_nil_iff.mpr (fun s hs hname => h s hs (by simpa using hname))
    rw [this, List.map_nil]
  rw [get_next_train, if_pos hids]
  exact ⟨rfl, by simp⟩

theorem C6_station_not_found_witness :
    get_next_train "NOWHERE" 1 sampleTables sampleNow = none ∧
      get_next_train "NOWHERE" 1 sampleTables sampleNow ≠ some [] :=
  C6_station_not_found "NOWHERE" 1 sampleTables sampleNow [] (by decide)

/-- C7: the query is a pure function of the four tables and the query
instant: identical inputs give identical output. -/
theorem C7_deterministic (station_name : String) (n : Nat) (tables1 tables2 : Tables)
    (now1 now2 : Instant) (ht : tables1 = tables2) (hn : now1 = now2) :
    get_next_train station_name n tables1 now1 =
      get_next_train station_name n tables2 now2 := by
  subst ht
  subst hn
  rfl

theorem C7_deterministic_witness :
    get_next_train "A" 1 sampleTables sampleNow =
      get_next_train "A" 1 sampleTables sampleNow :=
  C7_deterministic "A" 1 sampleTables sampleTables sampleNow sampleNow rfl rfl

/-- C8: the query never mutates its inputs: the caller-visible tables after
a call are exactly the tables before it, and the result is the pure
function of them. -/
theorem C8_no_input_mutation (station_name : String) (n : Nat) (tables : Tables)
    (now : Instant) :
    (get_next_train_run station_name n tables now).2 = tables ∧
      (get_next_train_run station_name n tables now).1 =
        get_next_train station_name n tables now :=
  ⟨rfl, rfl⟩

/-- C9 counterexample: it is not true that every refresh run with a
non-success download status ends without crashing — with no previously
saved archive, the run goes on to `extract_gtfs_info()` and dies there. -/
theorem C9_refresh_crash_counterexample :
    ¬ ∀ (response : HttpResponse) (fs : SavePathState),
        response.status_code ≠ 200 →
          (main_refresh "https://www.dart.org/transitdata/latest/google_transit.zip"
              "dart_gtfs.zip" response fs).isOk = true := by
  intro hall
  have h := hall { status_code := 500, content := [] } { savedZip := none } (by decide)
  exact absurd h (by decide)

/-- C9 amended: when the download status is not 200, the failure is reported
as the message with the failure status, no retry happens (the model issues
one request by construction) and the save path is left unchanged; the run
then continues into extraction and ends without crashing exactly when a
previously saved archive exists at the save path. -/
theorem C9_refresh_failure_reported (url path : String) (response : HttpResponse)
    (fs : SavePathState) (h : response.status_code ≠ 200) :
    (fetch_gtfs_data url path response fs).2 =
        "Failed to download GTFS data: " ++ toString response.status_code ∧
      (fetch_gtfs_data url path response fs).1 = fs ∧
      (main_refresh url path response fs).isOk = fs.savedZip.isSome := by
  unfold main_refresh extract_gtfs_info fetch_gtfs_data
  rw [if_neg h]
  refine ⟨rfl, rfl, ?_⟩
  rcases fs with ⟨z⟩
  cases z with
  | none => rfl
  | some b => rfl

theorem C9_refresh_failure_reported_witness :
    (fetch_gtfs_data "https://www.dart.org/transitdata/latest/google_transit.zip"
          "dart_gtfs.zip" { status_code := 404, content := [] }
          { savedZip := some [80, 75] }).2 =
        "Failed to download GTFS data: " ++ toString (404 : Nat) ∧
      (fetch_gtfs_data "https://www.dart.org/transitdata/latest/google_transit.zip"
          "dart_gtfs.zip" { status_code := 404, content := [] }
          { savedZip := some [80, 75] }).1 = { savedZip := some [80, 75] } ∧
      (main_refresh "https://www.dart.org/transitdata/latest/google_transit.zip"
          "dart_gtfs.zip" { status_code := 404, content := [] }
          { savedZip := some [80, 75] }).isOk =
        (some [80, 75] : Option (List Nat)).isSome :=
  C9_refresh_failure_reported
    "https://www.dart.org/transitdata/latest/google_transit.zip" "dart_gtfs.zip"
    { status_code := 404, content := [] } { savedZip := some [80, 75] } (by decide)

/-- C10: with perDestination = 0 the query still completes, and any result
list it returns is empty: each headsign group contributes its first 0
rows. -/
theorem C10_zero_per_destination (station_name : String) (tables : Tables)
    (now : Instant) (l : List Dep)
    (hl : get_next_train station_name 0 tables now = some l) : l = [] := by
  unfold get_next_train at hl
  by_cases hids : stationStopIds tables.stops station_name = []
  · rw [if_pos hids] at hl
    exact absurd hl (by simp)
  · rw [if_neg hids] at hl
    injection hl with hl
    have hkept : keptRows station_name 0 tables now = [] :=
      List.flatMap_eq_nil_iff.mpr (fun x _ => List.take_zero _)
    rw [← hl, hkept]
    rfl

theorem C10_zero_per_destination_witness : ([] : List Dep) = [] :=
  C10_zero_per_destination "A" sampleTables sampleNow [] (by decide)
